import Mathlib

/-!
# Verification of the Mandelbrot escape-time kernel of `fractal_app.py`

Shallow embedding of the escape-time fractal evaluation in
`src/fractal_app.py` (routes `/light` and `/fractal`).

Modelling choices:
* Complex samples (`np.complex128`) are modelled as pairs of rationals
  `ℚ × ℚ`, i.e. the exact real-arithmetic semantics of the numerical loop.
* The mask test `np.abs(z) < bound` is modelled without square roots:
  for a real bound, `|z| < bound ↔ 0 < bound ∧ |z|² < bound²`.
* `np.linspace a b n` is `linspace`: `n = 1` gives `[a]`, `n ≥ 2` gives
  `a + i·(b-a)/(n-1)` for `i < n`, `n = 0` gives `[]`.
* The vectorised loop
    `for i in range(max_iter): mask = abs(z) < B; z[mask] = z[mask]**2+c; fractal[mask] = i`
  acts pointwise: each grid point carries its own state `(z, fractal)`
  folded over `List.range max_iter` (`loopTo`, `escapeCount`).
* The `/fractal` endpoint (`generate_fractal`) returns `Option`: `none`
  models an uncaught Python exception (`ZeroDivisionError` from
  `-2.5/zoom` with `zoom = 0`, evaluated at line 80 before sampling, and
  `ValueError` from `np.linspace` with a negative sample count).
  Query parameters `w`, `h`, `iter` are Python ints, modelled as `ℤ`;
  the upper clamps `min(·, 5000)` / `min(·, 2000)` are from lines 76-78.
-/

/-- Squared magnitude of a complex number represented as `(re, im)`. -/
def normSq (z : ℚ × ℚ) : ℚ :=
  z.1 * z.1 + z.2 * z.2

/-- One Mandelbrot update `z ← z² + c` in real/imaginary parts
(source line 89 / 50: `z[mask] = z[mask]**2 + c[mask]`). -/
def zstep (c z : ℚ × ℚ) : ℚ × ℚ :=
  (z.1 * z.1 - z.2 * z.2 + c.1, 2 * z.1 * z.2 + c.2)

/-- The orbit `z₀ = 0, z_{n+1} = z_n² + c`. -/
def orbit (c : ℚ × ℚ) : ℕ → ℚ × ℚ
  | 0 => (0, 0)
  | n + 1 => zstep c (orbit c n)

/-- One iteration of the vectorised loop body, restricted to a single grid
point with state `(z, fractal)` at loop index `k` (source lines 87-90):
if `|z| < bound` then update `z` and record `fractal = k`, else freeze. -/
def stepState (c : ℚ × ℚ) (bound : ℚ) (s : (ℚ × ℚ) × ℕ) (k : ℕ) : (ℚ × ℚ) × ℕ :=
  if 0 < bound ∧ normSq s.1 < bound * bound then (zstep c s.1, k) else s

/-- State of one grid point after the loop `for i in range(n)` starting
from `z = 0`, `fractal = 0`. -/
def loopTo (c : ℚ × ℚ) (bound : ℚ) (n : ℕ) : (ℚ × ℚ) × ℕ :=
  (List.range n).foldl (stepState c bound) ((0, 0), 0)

/-- The recorded escape iteration of the point `c` after `maxIter` loop
iterations: the `fractal` component of the final state. -/
def escapeCount (c : ℚ × ℚ) (bound : ℚ) (maxIter : ℕ) : ℕ :=
  (loopTo c bound maxIter).2

/-- `np.linspace a b n`: `n` evenly spaced samples from `a` to `b`
(endpoint included); a single sample is `a`. -/
def linspace (a b : ℚ) (n : ℕ) : List ℚ :=
  (List.range n).map
    (fun i : ℕ => if n = 1 then a else a + (i : ℚ) * (b - a) / ((n : ℚ) - 1))

/-- The escape-time evaluator: grid `c[i][j] = x[i] + y[j]·i` over
`linspace`d coordinates (source lines 80-90 with the endpoint's bounds
passed in; also lines 41-51 for `/light`), returning the IterationField
as a `width`-list of `height`-lists. -/
def evaluate (width height : ℕ) (xmin xmax ymin ymax : ℚ) (maxIter : ℕ) (bound : ℚ) :
    List (List ℕ) :=
  (linspace xmin xmax width).map (fun xi =>
    (linspace ymin ymax height).map (fun yj =>
      escapeCount (xi, yj) bound maxIter))

/-- The `/light` route's IterationField (source lines 40-51): fixed
`400×300` grid over `(-2.5, 1.5) × (-2.0, 2.0)`, 30 iterations, bound 4. -/
def lightFractal : List (List ℕ) :=
  evaluate 400 300 (-2.5) 1.5 (-2) 2 30 4

/-- The x coordinate sequence of the `/fractal` endpoint (source line 80):
`np.linspace(-2.5/zoom, 1.5/zoom, width)`. -/
def xcoords (zoom : ℚ) (width : ℕ) : List ℚ :=
  linspace (-(2.5 : ℚ) / zoom) ((1.5 : ℚ) / zoom) width

/-- The y coordinate sequence of the `/fractal` endpoint (source line 81):
`np.linspace(-2.0/zoom, 2.0/zoom, height)`. -/
def ycoords (zoom : ℚ) (height : ℕ) : List ℚ :=
  linspace (-(2 : ℚ) / zoom) ((2 : ℚ) / zoom) height

/-- The `/fractal` route (source lines 66-90): clamp `w`, `h` to 5000 and
`iter` to 2000 from above (lines 76-78, no lower clamp), then evaluate over
the zoomed viewport with bound 50. `none` models an uncaught exception, in
source evaluation order: `-2.5/zoom` raises `ZeroDivisionError` when
`zoom = 0` (line 80, before any sampling); `np.linspace` raises
`ValueError` on a negative sample count (line 80 for `w`, line 81 for `h`). -/
def generateFractal (w h : ℤ) (zoom : ℚ) (maxIter : ℤ) : Option (List (List ℕ)) :=
  if zoom = 0 then none
  else if min w 5000 < 0 then none
  else if min h 5000 < 0 then none
  else some (evaluate (min w 5000).toNat (min h 5000).toNat
    (-(2.5 : ℚ) / zoom) ((1.5 : ℚ) / zoom) (-(2 : ℚ) / zoom) ((2 : ℚ) / zoom)
    (min maxIter 2000).toNat 50)

/-- Specification predicate, following the spec's words (§4.1
postcondition): `e` is the smallest `k` in `[0, maxIter)` such that the
orbit of `c` satisfies `|z_{k+1}| ≥ bound` (squared form), or
`maxIter - 1` when no such `k` exists within the budget. -/
def isEscapeEntry (c : ℚ × ℚ) (bound : ℚ) (maxIter : ℕ) (e : ℕ) : Prop :=
  (e < maxIter ∧ bound * bound ≤ normSq (orbit c (e + 1)) ∧
    ∀ k < e, normSq (orbit c (k + 1)) < bound * bound) ∨
  (e = maxIter - 1 ∧ ∀ k < maxIter, normSq (orbit c (k + 1)) < bound * bound)

/-! ## Basic lemmas about the loop -/

lemma loopTo_zero (c : ℚ × ℚ) (bound : ℚ) : loopTo c bound 0 = ((0, 0), 0) := rfl

lemma loopTo_succ (c : ℚ × ℚ) (bound : ℚ) (n : ℕ) :
    loopTo c bound (n + 1) = stepState c bound (loopTo c bound n) n := by
  unfold loopTo
  rw [List.range_succ, List.foldl_append, List.foldl_cons, List.foldl_nil]

/-- A still-active point is updated and records the current index. -/
lemma stepState_active (c : ℚ × ℚ) (bound : ℚ) (z : ℚ × ℚ) (fr k : ℕ)
    (h1 : 0 < bound) (h2 : normSq z < bound * bound) :
    stepState c bound (z, fr) k = (zstep c z, k) := by
  simp [stepState, h1, h2]

/-- A point at or past the bound is left unmodified. -/
lemma stepState_frozen (c : ℚ × ℚ) (bound : ℚ) (z : ℚ × ℚ) (fr k : ℕ)
    (h2 : bound * bound ≤ normSq z) :
    stepState c bound (z, fr) k = (z, fr) := by
  simp [stepState, not_lt.mpr h2]

/-- The recorded index never exceeds the last visited loop index. -/
lemma stepState_snd (c : ℚ × ℚ) (bound : ℚ) (s : (ℚ × ℚ) × ℕ) (k : ℕ) :
    (stepState c bound s k).2 = k ∨ (stepState c bound s k).2 = s.2 := by
  unfold stepState
  split
  · left; rfl
  · right; rfl

/-- While every orbit value seen so far stays strictly below the bound, the
loop state tracks the orbit and records the last visited index. -/
lemma loopTo_active (c : ℚ × ℚ) (bound : ℚ) (hb : 0 < bound) (n : ℕ)
    (h : ∀ m < n, normSq (orbit c m) < bound * bound) :
    loopTo c bound n = (orbit c n, n - 1) := by
  induction n with
  | zero => rfl
  | succ n ih =>
    have hn : loopTo c bound n = (orbit c n, n - 1) :=
      ih (fun m hm => h m (Nat.lt_succ_of_lt hm))
    rw [loopTo_succ, hn, stepState_active c bound _ _ _ hb (h n (Nat.lt_succ_self n))]
    simp [orbit]

/-- Once the orbit reaches the bound at index `m` (the first such index),
the state freezes at `(orbit c m, m - 1)` for the rest of the loop. -/
lemma loopTo_escaped (c : ℚ × ℚ) (bound : ℚ) (hb : 0 < bound) (m : ℕ)
    (hm1 : 1 ≤ m)
    (hact : ∀ j < m, normSq (orbit c j) < bound * bound)
    (hesc : bound * bound ≤ normSq (orbit c m)) :
    ∀ n, m ≤ n → loopTo c bound n = (orbit c m, m - 1) := by
  intro n
  induction n with
  | zero => intro h; omega
  | succ n ih =>
    intro hmn
    rcases Nat.lt_or_ge n m with hlt | hge
    · have heq : m = n + 1 := by omega
      subst heq
      have hn : loopTo c bound n = (orbit c n, n - 1) :=
        loopTo_active c bound hb n (fun j hj => hact j (by omega))
      rw [loopTo_succ, hn, stepState_active c bound _ _ _ hb (hact n (by omega))]
      simp [orbit]
    · have hn := ih hge
      rw [loopTo_succ, hn, stepState_frozen c bound _ _ _ hesc]

lemma loopTo_snd_le (c : ℚ × ℚ) (bound : ℚ) (n : ℕ) :
    (loopTo c bound n).2 ≤ n - 1 := by
  induction n with
  | zero => simp [loopTo]
  | succ n ih =>
    rw [loopTo_succ]
    rcases stepState_snd c bound (loopTo c bound n) n with h | h <;> rw [h] <;> omega

lemma orbit_zero_eq (n : ℕ) : orbit (0, 0) n = (0, 0) := by
  induction n with
  | zero => rfl
  | succ n ih =>
    show zstep (0, 0) (orbit (0, 0) n) = (0, 0)
    rw [ih]
    norm_num [zstep]

lemma normSq_orbit_zero (c : ℚ × ℚ) : normSq (orbit c 0) = 0 := by
  simp [orbit, normSq]

/-- The per-point loop result satisfies the spec's escape-time
characterisation. -/
lemma escapeCount_isEscapeEntry (c : ℚ × ℚ) (bound : ℚ) (mi : ℕ)
    (hb : 0 < bound) :
    isEscapeEntry c bound mi (escapeCount c bound mi) := by
  by_cases H : ∃ k, k < mi ∧ bound * bound ≤ normSq (orbit c (k + 1))
  · have hk0 : Nat.find H < mi ∧ bound * bound ≤ normSq (orbit c (Nat.find H + 1)) :=
      Nat.find_spec H
    have hmin : ∀ j, j < Nat.find H → normSq (orbit c (j + 1)) < bound * bound := by
      intro j hj
      have hnot := Nat.find_min H hj
      push_neg at hnot
      exact hnot (by omega)
    have hact : ∀ j, j < Nat.find H + 1 → normSq (orbit c j) < bound * bound := by
      intro j hj
      rcases j with _ | j
      · rw [normSq_orbit_zero]; exact mul_pos hb hb
      · exact hmin j (by omega)
    have hfr := loopTo_escaped c bound hb (Nat.find H + 1) (by omega) hact hk0.2 mi
      (by omega)
    have hcount : escapeCount c bound mi = Nat.find H := by
      unfold escapeCount
      rw [hfr]
      simp
    rw [hcount]
    exact Or.inl ⟨hk0.1, hk0.2, hmin⟩
  · push_neg at H
    have hact : ∀ m, m < mi → normSq (orbit c m) < bound * bound := by
      intro m hm
      rcases m with _ | j
      · rw [normSq_orbit_zero]; exact mul_pos hb hb
      · exact H j (by omega)
    have hfr := loopTo_active c bound hb mi hact
    have hcount : escapeCount c bound mi = mi - 1 := by
      unfold escapeCount
      rw [hfr]
    rw [hcount]
    exact Or.inr ⟨rfl, H⟩

lemma escapeCount_lt (c : ℚ × ℚ) (bound : ℚ) (mi : ℕ) (hmi : 1 ≤ mi) :
    escapeCount c bound mi < mi := by
  have := loopTo_snd_le c bound mi
  unfold escapeCount
  omega

/-- A point at `c = 0` stays at the origin, so its entry is `mi - 1`. -/
lemma escapeCount_origin (bnd : ℚ) (hb : 0 < bnd) (mi : ℕ) :
    escapeCount (0, 0) bnd mi = mi - 1 := by
  have hact : ∀ m, m < mi → normSq (orbit (0, 0) m) < bnd * bnd := by
    intro m _
    rw [orbit_zero_eq]
    have h0 : normSq ((0, 0) : ℚ × ℚ) = 0 := by norm_num [normSq]
    rw [h0]
    exact mul_pos hb hb
  unfold escapeCount
  rw [loopTo_active (0, 0) bnd hb mi hact]

/-- A budget of one iteration records `0` at every point. -/
lemma escapeCount_one_iter (c : ℚ × ℚ) (bnd : ℚ) (hb : 0 < bnd) :
    escapeCount c bnd 1 = 0 := by
  have hact : ∀ m, m < 1 → normSq (orbit c m) < bnd * bnd := by
    intro m hm
    have hm0 : m = 0 := by omega
    subst hm0
    rw [normSq_orbit_zero]
    exact mul_pos hb hb
  unfold escapeCount
  rw [loopTo_active c bnd hb 1 hact]

/-! ## Lemmas about the sampled grid -/

lemma linspace_length (a b : ℚ) (n : ℕ) : (linspace a b n).length = n := by
  unfold linspace
  rw [List.length_map, List.length_range]

lemma getD_map_of_lt {α β : Type} (f : α → β) (l : List α) (i : ℕ)
    (hi : i < l.length) (d : β) (d0 : α) :
    (l.map f).getD i d = f (l.getD i d0) := by
  rw [List.getD_eq_getElem _ _ (by simpa using hi), List.getD_eq_getElem _ _ hi,
    List.getElem_map]

lemma linspace_getD (a b : ℚ) (n i : ℕ) (hi : i < n) :
    (linspace a b n).getD i 0 =
      if n = 1 then a else a + i * (b - a) / ((n : ℚ) - 1) := by
  unfold linspace
  rw [getD_map_of_lt _ _ i (by simpa using hi) 0 0,
    List.getD_eq_getElem _ _ (by simpa using hi), List.getElem_range]

lemma evaluate_length (w h mi : ℕ) (a b c d bnd : ℚ) :
    (evaluate w h a b c d mi bnd).length = w := by
  simp [evaluate, linspace_length]

lemma evaluate_row_length (w h mi : ℕ) (a b c d bnd : ℚ) :
    ∀ row ∈ evaluate w h a b c d mi bnd, row.length = h := by
  intro row hrow
  simp only [evaluate, List.mem_map] at hrow
  obtain ⟨xi, _, rfl⟩ := hrow
  simp [linspace_length]

lemma evaluate_getD (w h mi : ℕ) (a b c d bnd : ℚ) (i j : ℕ)
    (hi : i < w) (hj : j < h) :
    ((evaluate w h a b c d mi bnd).getD i []).getD j 0 =
      escapeCount ((linspace a b w).getD i 0, (linspace c d h).getD j 0) bnd mi := by
  have hi1 : i < (linspace a b w).length := by simpa [linspace_length] using hi
  have hj1 : j < (linspace c d h).length := by simpa [linspace_length] using hj
  unfold evaluate
  rw [getD_map_of_lt _ _ i hi1 [] 0, getD_map_of_lt _ _ j hj1 0 0]


/-! ## Claims -/

/-- C1: for every `width ≥ 1`, `height ≥ 1`, `max_iterations ≥ 1` and
`escape_bound > 0`, the escape-time evaluation returns an IterationField of
shape `width × height` in which each entry `iter[i][j]` equals the smallest
`k` in `[0, max_iterations)` such that the orbit `z₀ = 0, z_{n+1} = z_n² + c[i][j]`
satisfies `|z_{k+1}| ≥ escape_bound`, and equals `max_iterations - 1` when no
such `k` exists within the budget. -/
theorem evaluate_matches_escape_time_spec (w h mi : ℕ) (a b c d bnd : ℚ)
    (_hw : 1 ≤ w) (_hh : 1 ≤ h) (_hmi : 1 ≤ mi) (hb : 0 < bnd) :
    (evaluate w h a b c d mi bnd).length = w ∧
    (∀ row ∈ evaluate w h a b c d mi bnd, row.length = h) ∧
    ∀ i < w, ∀ j < h,
      isEscapeEntry ((linspace a b w).getD i 0, (linspace c d h).getD j 0) bnd mi
        (((evaluate w h a b c d mi bnd).getD i []).getD j 0) := by
  refine ⟨evaluate_length w h mi a b c d bnd, evaluate_row_length w h mi a b c d bnd, ?_⟩
  intro i hi j hj
  rw [evaluate_getD w h mi a b c d bnd i j hi hj]
  exact escapeCount_isEscapeEntry _ _ _ hb

theorem evaluate_matches_escape_time_spec_witness :
    evaluate 1 1 0 0 0 0 1 1 = [[0]] ∧
      isEscapeEntry ((linspace 0 0 1).getD 0 0, (linspace 0 0 1).getD 0 0) 1 1
        (((evaluate 1 1 0 0 0 0 1 1).getD 0 []).getD 0 0) :=
  ⟨by
    have h2 : escapeCount (0 : ℚ × ℚ) 1 1 = 0 := escapeCount_origin 1 (by norm_num) 1
    simp [evaluate, linspace, h2],
    (evaluate_matches_escape_time_spec 1 1 1 0 0 0 0 1
      (by norm_num) (by norm_num) (by norm_num) (by norm_num)).2.2
      0 (by norm_num) 0 (by norm_num)⟩

/-- C2: for every valid input (`width ≥ 1`, `height ≥ 1`,
`max_iterations ≥ 1`, `escape_bound > 0`), every entry of the produced
IterationField lies in `[0, max_iterations)` (entries are naturals, so the
lower bound is inherent). -/
theorem evaluate_entries_in_range (w h mi : ℕ) (a b c d bnd : ℚ)
    (_hw : 1 ≤ w) (_hh : 1 ≤ h) (hmi : 1 ≤ mi) (_hb : 0 < bnd) :
    ∀ row ∈ evaluate w h a b c d mi bnd, ∀ e ∈ row, e < mi := by
  intro row hrow e he
  simp only [evaluate, List.mem_map] at hrow
  obtain ⟨xi, _, rfl⟩ := hrow
  simp only [List.mem_map] at he
  obtain ⟨yj, _, rfl⟩ := he
  exact escapeCount_lt _ _ _ hmi

theorem evaluate_entries_in_range_witness :
    evaluate 1 1 0 0 0 0 2 1 = [[1]] ∧
      ∀ row ∈ evaluate 1 1 0 0 0 0 2 1, ∀ e ∈ row, e < 2 :=
  ⟨by
    have h2 : escapeCount (0 : ℚ × ℚ) 1 2 = 1 := escapeCount_origin 1 (by norm_num) 2
    simp [evaluate, linspace, h2],
    evaluate_entries_in_range 1 1 2 0 0 0 0 1
      (by norm_num) (by norm_num) (by norm_num) (by norm_num)⟩

/-- C3: the evaluator is deterministic — for identical parameter tuples
(dimensions, viewport bounds, iteration budget, escape bound) two
invocations produce identical IterationFields. -/
theorem evaluate_deterministic (w w2 h h2 mi mi2 : ℕ)
    (a a2 b b2 c c2 d d2 bnd bnd2 : ℚ)
    (e1 : w = w2) (e2 : h = h2) (e3 : a = a2) (e4 : b = b2) (e5 : c = c2)
    (e6 : d = d2) (e7 : mi = mi2) (e8 : bnd = bnd2) :
    evaluate w h a b c d mi bnd = evaluate w2 h2 a2 b2 c2 d2 mi2 bnd2 := by
  subst e1 e2 e3 e4 e5 e6 e7 e8
  rfl

theorem evaluate_deterministic_witness :
    evaluate 2 2 (-1) 1 (-1) 1 3 2 = evaluate 2 2 (-1) 1 (-1) 1 3 2 :=
  evaluate_deterministic 2 2 2 2 3 3 (-1) (-1) 1 1 (-1) (-1) 1 1 2 2
    rfl rfl rfl rfl rfl rfl rfl rfl

/-- C4: for every zoom factor `f > 0`, the `/fractal` coordinate sequences
with zoom scaled by `f` equal the sequences obtained by first dividing the
viewport extents (the base viewport `(-2.5, 1.5) × (-2.0, 2.0)` scaled by
`1/zoom`) by `f` and then sampling; the `f = 2` instance is the witness. -/
theorem zoom_scaling_equiv (zoom f : ℚ) (w h : ℕ) (_hf : 0 < f) :
    xcoords (zoom * f) w = linspace (-(2.5 : ℚ) / zoom / f) ((1.5 : ℚ) / zoom / f) w ∧
    ycoords (zoom * f) h = linspace (-(2 : ℚ) / zoom / f) ((2 : ℚ) / zoom / f) h := by
  constructor
  · unfold xcoords
    rw [div_div, div_div]
  · unfold ycoords
    rw [div_div, div_div]

theorem zoom_scaling_equiv_witness :
    xcoords (1 * 2) 3 = linspace (-(2.5 : ℚ) / 1 / 2) ((1.5 : ℚ) / 1 / 2) 3 ∧
    ycoords (1 * 2) 3 = linspace (-(2 : ℚ) / 1 / 2) ((2 : ℚ) / 1 / 2) 3 :=
  zoom_scaling_equiv 1 2 3 3 (by norm_num)

/-- C5 (code behaviour at the claim's failing inputs): the `/fractal`
route performs no lower-bound validation. A request with `w = 0` builds an
empty grid and returns an empty field, and a request with `iter = 0` runs
the (empty) loop and returns an all-zero field — in both cases the service
proceeds instead of reporting an invalid-input error. -/
theorem generateFractal_no_lower_validation :
    generateFractal 0 600 1 100 = some [] ∧
    generateFractal 1 1 1 0 = some [[0]] := by
  constructor
  · have e1 : generateFractal 0 600 1 100 =
        some (evaluate (min (0 : ℤ) 5000).toNat (min (600 : ℤ) 5000).toNat
          (-(2.5 : ℚ) / 1) ((1.5 : ℚ) / 1) (-(2 : ℚ) / 1) ((2 : ℚ) / 1)
          (min (100 : ℤ) 2000).toNat 50) := by
      unfold generateFractal
      rw [if_neg (by norm_num), if_neg (by decide), if_neg (by decide)]
    rw [e1, show (min (0 : ℤ) 5000).toNat = 0 by decide]
    simp [evaluate, linspace]
  · have e2 : generateFractal 1 1 1 0 =
        some (evaluate (min (1 : ℤ) 5000).toNat (min (1 : ℤ) 5000).toNat
          (-(2.5 : ℚ) / 1) ((1.5 : ℚ) / 1) (-(2 : ℚ) / 1) ((2 : ℚ) / 1)
          (min (0 : ℤ) 2000).toNat 50) := by
      unfold generateFractal
      rw [if_neg (by norm_num), if_neg (by decide), if_neg (by decide)]
    rw [e2, show (min (1 : ℤ) 5000).toNat = 1 by decide,
      show (min (0 : ℤ) 2000).toNat = 0 by decide]
    simp [evaluate, linspace, escapeCount, loopTo]

/-- C6: the `/fractal` route evaluates with `width`/`height` clamped to at
most 5000 and the iteration count clamped to at most 2000, the clamps
being applied before the evaluator runs; the produced field has the
clamped shape. -/
theorem generateFractal_clamps (w h mi : ℤ) (zoom : ℚ)
    (hz : zoom ≠ 0) (hw : 1 ≤ w) (hh : 1 ≤ h) :
    generateFractal w h zoom mi =
      some (evaluate (min w 5000).toNat (min h 5000).toNat
        (-(2.5 : ℚ) / zoom) ((1.5 : ℚ) / zoom) (-(2 : ℚ) / zoom) ((2 : ℚ) / zoom)
        (min mi 2000).toNat 50) ∧
    ∀ F, generateFractal w h zoom mi = some F →
      F.length = (min w 5000).toNat ∧ ∀ row ∈ F, row.length = (min h 5000).toNat := by
  have heq : generateFractal w h zoom mi =
      some (evaluate (min w 5000).toNat (min h 5000).toNat
        (-(2.5 : ℚ) / zoom) ((1.5 : ℚ) / zoom) (-(2 : ℚ) / zoom) ((2 : ℚ) / zoom)
        (min mi 2000).toNat 50) := by
    unfold generateFractal
    rw [if_neg hz, if_neg (by omega), if_neg (by omega)]
  refine ⟨heq, ?_⟩
  intro F hF
  rw [heq, Option.some_inj] at hF
  subst hF
  exact ⟨evaluate_length _ _ _ _ _ _ _ _, evaluate_row_length _ _ _ _ _ _ _ _⟩

theorem generateFractal_clamps_witness :
    generateFractal 1 1 1 1 = some [[0]] ∧
      ∀ F, generateFractal 1 1 1 1 = some F →
        F.length = (min (1 : ℤ) 5000).toNat ∧
          ∀ row ∈ F, row.length = (min (1 : ℤ) 5000).toNat :=
  ⟨by
    have e : generateFractal 1 1 1 1 =
        some (evaluate (min (1 : ℤ) 5000).toNat (min (1 : ℤ) 5000).toNat
          (-(2.5 : ℚ) / 1) ((1.5 : ℚ) / 1) (-(2 : ℚ) / 1) ((2 : ℚ) / 1)
          (min (1 : ℤ) 2000).toNat 50) := by
      unfold generateFractal
      rw [if_neg (by norm_num), if_neg (by decide), if_neg (by decide)]
    have h1 : escapeCount ((-2.5 : ℚ), (-2 : ℚ)) 50 1 = 0 :=
      escapeCount_one_iter _ 50 (by norm_num)
    rw [e, show (min (1 : ℤ) 5000).toNat = 1 by decide,
      show (min (1 : ℤ) 2000).toNat = 1 by decide]
    simp [evaluate, linspace, h1],
    (generateFractal_clamps 1 1 1 1 (by norm_num) (by norm_num) (by norm_num)).2⟩

/-- C7: for `width ≥ 2` the sampled coordinate sequence satisfies
`x[i] = x_min + i·(x_max - x_min)/(width-1)` for every `i < width` (and the
same formula over `height` gives the y sequence). -/
theorem linspace_formula (a b : ℚ) (n : ℕ) (hn : 2 ≤ n) :
    ∀ i < n, (linspace a b n).getD i 0 = a + (i : ℚ) * (b - a) / ((n : ℚ) - 1) := by
  intro i hi
  rw [linspace_getD a b n i hi, if_neg (by omega)]

theorem linspace_formula_witness :
    (linspace 0 1 2).getD 1 0 = 0 + ((1 : ℕ) : ℚ) * (1 - 0) / (((2 : ℕ) : ℚ) - 1) :=
  linspace_formula 0 1 2 (by norm_num) 1 (by norm_num)

/-- C8: a sample point at `c = 0` never escapes for any `escape_bound > 0`
and any iteration budget `≥ 1` — its orbit stays at 0 and its recorded
entry equals `max_iterations - 1`. -/
theorem origin_never_escapes (bnd : ℚ) (mi : ℕ) (hb : 0 < bnd) (_hmi : 1 ≤ mi) :
    (∀ n, orbit (0, 0) n = (0, 0)) ∧ escapeCount (0, 0) bnd mi = mi - 1 :=
  ⟨orbit_zero_eq, escapeCount_origin bnd hb mi⟩

theorem origin_never_escapes_witness :
    escapeCount (0, 0) 4 30 = 29 := by
  rw [(origin_never_escapes 4 30 (by norm_num) (by norm_num)).2]

/-- C9: with `width = height = 1`, `x_min = x_max = 0`, `y_min = y_max = 0`,
`max_iterations = 30` and `escape_bound = 4`, the single output entry is 29. -/
theorem evaluate_known_value : evaluate 1 1 0 0 0 0 30 4 = [[29]] := by
  have h2 : escapeCount (0 : ℚ × ℚ) 4 30 = 29 := escapeCount_origin 4 (by norm_num) 30
  simp [evaluate, linspace, h2]

/-- C10: the `/fractal` route applies no guard or clamp to `zoom`: with
`zoom = 0` the viewport derivation `-2.5/zoom` performs an unguarded
division by zero (modelled as the `none` outcome, i.e. the uncaught
`ZeroDivisionError`) before the evaluator runs, for every accepted
request. -/
theorem generateFractal_zoom_zero_divides (w h mi : ℤ) :
    generateFractal w h 0 mi = none := by
  unfold generateFractal
  rw [if_pos rfl]
